import Mathlib

/-!
Shallow embedding of `cinder/coordination.py`: the `Coordinator` class
(connection lifecycle, heartbeat loop, jittered-backoff reconnection, lock
creation) and the `synchronized` guarded-call decorator, together with
theorems settling the specification claims about them.
-/

namespace Cinder

/-! ### Byte encoding: Python `str.encode('ascii')` -/

/-- Model of Python `s.encode('ascii')`: succeeds with the list of code
points when every character of `s` is below 128, otherwise raises
`UnicodeEncodeError` (modelled as `Except.error ()`). -/
def encodeAscii (s : String) : Except Unit (List Nat) :=
  if s.toList.all (fun c => c.toNat < 128) then
    Except.ok (s.toList.map Char.toNat)
  else
    Except.error ()

theorem encodeAscii_error_of_nonascii (s : String)
    (h : ∃ c ∈ s.toList, 128 ≤ c.toNat) :
    encodeAscii s = Except.error () := by
  obtain ⟨c, hc, hge⟩ := h
  unfold encodeAscii
  rw [if_neg]
  intro hall
  rw [List.all_eq_true] at hall
  have := hall c hc
  simp only [decide_eq_true_eq] at this
  omega

/-! ### `Coordinator.get_lock`

In the source (coordination.py lines 107-118) the lock name is encoded
first (`(self.prefix + name).encode('ascii')`), then `self.coordinator`
is tested; the backend is consulted only on the connected path.  The
`prefix` attribute of the Python class is modelled by the argument `pfx`.
-/

inductive GetLockError where
  | unicodeEncodeError
  | lockCreationFailed
deriving DecidableEq

/-- The backend coordination handle (a started tooz coordinator), as seen
by `get_lock`: an abstract constructor of lock handles from byte names. -/
structure BackendDriver (L : Type) where
  getLockOf : List Nat → L

/-- Model of `Coordinator.get_lock`.  The first component records the lock
names requested from the backend during the call (the instrumentation used
to state "no lock is requested"); the second is the call's outcome. -/
def get_lock {L : Type} (pfx : String) (coordinator : Option (BackendDriver L))
    (name : String) : List (List Nat) × Except GetLockError L :=
  match encodeAscii (pfx ++ name) with
  | Except.error _ => ([], Except.error GetLockError.unicodeEncodeError)
  | Except.ok lock_name =>
    match coordinator with
    | some c => ([lock_name], Except.ok (c.getLockOf lock_name))
    | none => ([], Except.error GetLockError.lockCreationFailed)

/-- C3, counterexample: with the non-ASCII lock name `"é"` and the
coordinator disconnected, `get_lock` raises `UnicodeEncodeError`, not
`LockCreationFailed` — so the claim, quantified over every lock name, is
false as stated. -/
theorem getLock_disconnected_counterexample :
    (get_lock "cinder-" (none : Option (BackendDriver Unit)) "é").2
      ≠ Except.error GetLockError.lockCreationFailed := by
  have h : (get_lock "cinder-" (none : Option (BackendDriver Unit)) "é").2
      = Except.error GetLockError.unicodeEncodeError := rfl
  simp [h]

/-- C3 (amended): for every lock name whose prefixed form is
ASCII-encodable, `get_lock` while disconnected fails with
`LockCreationFailed`, and while connected returns the lock handle the
backend yields for the fully-qualified (prefixed, encoded) name. -/
theorem getLock_connected_iff_handle {L : Type} (pfx name : String)
    (bs : List Nat) (henc : encodeAscii (pfx ++ name) = Except.ok bs)
    (c : BackendDriver L) :
    (get_lock pfx (none : Option (BackendDriver L)) name).2
        = Except.error GetLockError.lockCreationFailed
    ∧ (get_lock pfx (some c) name).2 = Except.ok (c.getLockOf bs) := by
  constructor <;> simp [get_lock, henc]

/-- C3 witness: the amended theorem applied at `pfx = "cinder-"`,
`name = "x"`, with the identity backend driver. -/
theorem getLock_connected_iff_handle_witness :
    (get_lock "cinder-" (none : Option (BackendDriver (List Nat))) "x").2
        = Except.error GetLockError.lockCreationFailed
    ∧ (get_lock "cinder-" (some ⟨fun bs => bs⟩) "x").2
        = Except.ok ("cinder-x".toList.map Char.toNat) :=
  getLock_connected_iff_handle "cinder-" "x" ("cinder-x".toList.map Char.toNat)
    (by rfl) ⟨fun bs => bs⟩

/-- C10: whenever the prefixed lock name contains a character outside the
ASCII range, `get_lock` raises the Unicode encoding error — never
`LockCreationFailed` — regardless of whether a backend handle is present,
and no lock name is sent to the backend (the request list is empty). -/
theorem getLock_nonascii {L : Type} (pfx name : String)
    (coordinator : Option (BackendDriver L))
    (h : ∃ c ∈ (pfx ++ name).toList, 128 ≤ c.toNat) :
    get_lock pfx coordinator name
      = ([], Except.error GetLockError.unicodeEncodeError) := by
  simp [get_lock, encodeAscii_error_of_nonascii _ h]

/-- C10 witness: the theorem applied at the non-ASCII name `"é"` with a
connected coordinator. -/
theorem getLock_nonascii_witness :
    get_lock "cinder-" (some (⟨fun bs => bs⟩ : BackendDriver (List Nat))) "é"
      = ([], Except.error GetLockError.unicodeEncodeError) :=
  getLock_nonascii "cinder-" "é" _ ⟨'é', by decide, by decide⟩

/-! ### The `synchronized` decorator — the `_synchronized` wrapper body

In the source (coordination.py lines 223-249) the wrapper resolves the
lock name, obtains a lock handle, and runs
`with lock(blocking): return f(*a, **k)` inside a `try/finally` whose
`finally` only logs.  The context manager acquires on entry — raising
`LockAcquireFailed` when the acquire under the given policy does not
succeed — and releases on exit on both the normal and the raising path.
-/

/-- The `blocking` argument of `synchronized`: `True`, `False`, or a
timeout in seconds. -/
inductive BlockingPolicy where
  | block
  | failImmediately
  | timeoutAfter (secs : ℚ)
deriving DecidableEq

inductive SyncEvent where
  | lockAcquired
  | opRan
  | lockReleased
deriving DecidableEq

/-- Outcome of a guarded call: the wrapped operation's value, the wrapped
operation's own failure propagated, or `LockAcquireFailed`. -/
inductive SyncOutcome (E B : Type) where
  | ok (b : B)
  | opError (e : E)
  | lockAcquireFailed
deriving DecidableEq

/-- Model of `_synchronized` after the lock handle is obtained: `acquire`
is the backend lock's response to acquisition under the given policy, `f`
the wrapped operation (returning a value or raising `e`).  The trace
records acquisition, the run of the operation body, and release, in
program order; the wrapper returns only once the whole trace has
happened. -/
def _synchronized {E B : Type} (acquire : BlockingPolicy → Bool)
    (blocking : BlockingPolicy) (f : Unit → Except E B) :
    List SyncEvent × SyncOutcome E B :=
  if acquire blocking then
    match f () with
    | Except.ok b =>
        ([SyncEvent.lockAcquired, SyncEvent.opRan, SyncEvent.lockReleased],
         SyncOutcome.ok b)
    | Except.error e =>
        ([SyncEvent.lockAcquired, SyncEvent.opRan, SyncEvent.lockReleased],
         SyncOutcome.opError e)
  else
    ([], SyncOutcome.lockAcquireFailed)

/-- C1: when acquisition succeeds, the wrapped operation runs and the lock
is released after the operation body and before the wrapper returns, on
the normal and the raising path alike; the operation's result or failure
is propagated to the caller unchanged. -/
theorem synchronized_acquired {E B : Type} (acquire : BlockingPolicy → Bool)
    (blocking : BlockingPolicy) (f : Unit → Except E B)
    (h : acquire blocking = true) :
    _synchronized acquire blocking f
      = ([SyncEvent.lockAcquired, SyncEvent.opRan, SyncEvent.lockReleased],
         match f () with
         | Except.ok b => SyncOutcome.ok b
         | Except.error e => SyncOutcome.opError e) := by
  cases hf : f () <;> simp [_synchronized, h, hf]

/-- C1 witness: the theorem applied to an always-granting lock, once with
an operation that returns `7` and once with one that raises. -/
theorem synchronized_acquired_witness :
    _synchronized (fun _ => true) BlockingPolicy.block
        (fun _ => (Except.ok 7 : Except Unit Nat))
      = ([SyncEvent.lockAcquired, SyncEvent.opRan, SyncEvent.lockReleased],
         SyncOutcome.ok 7)
    ∧ _synchronized (fun _ => true) BlockingPolicy.block
        (fun _ => (Except.error () : Except Unit Nat))
      = ([SyncEvent.lockAcquired, SyncEvent.opRan, SyncEvent.lockReleased],
         SyncOutcome.opError ()) :=
  ⟨synchronized_acquired (fun _ => true) BlockingPolicy.block
      (fun _ => Except.ok 7) rfl,
   synchronized_acquired (fun _ => true) BlockingPolicy.block
      (fun _ => Except.error ()) rfl⟩

/-- C2: under a fail-immediately or timeout policy whose acquisition does
not succeed, the wrapper fails with `LockAcquireFailed` and the wrapped
operation body never runs (the event trace is empty, so it contains no
`opRan`). -/
theorem synchronized_not_acquired {E B : Type} (acquire : BlockingPolicy → Bool)
    (blocking : BlockingPolicy) (f : Unit → Except E B)
    (hpol : blocking = BlockingPolicy.failImmediately
      ∨ ∃ t, blocking = BlockingPolicy.timeoutAfter t)
    (h : acquire blocking = false) :
    _synchronized acquire blocking f = ([], SyncOutcome.lockAcquireFailed)
    ∧ SyncEvent.opRan ∉ (_synchronized acquire blocking f).1 := by
  constructor <;> simp [_synchronized, h]

/-- C2 witness: the theorem applied to a lock that denies a
fail-immediately acquisition. -/
theorem synchronized_not_acquired_witness :
    _synchronized (fun _ => false) BlockingPolicy.failImmediately
        (fun _ => (Except.ok 7 : Except Unit Nat))
      = ([], SyncOutcome.lockAcquireFailed)
    ∧ SyncEvent.opRan ∉ (_synchronized (fun _ => false)
        BlockingPolicy.failImmediately
        (fun _ => (Except.ok 7 : Except Unit Nat))).1 :=
  synchronized_not_acquired (fun _ => false) BlockingPolicy.failImmediately
    (fun _ => Except.ok 7) (Or.inl rfl) rfl

/-! ### Lock-name resolution (`lock_name.format(**call_args)`) -/

/-- A lock-name template, split into literal text and `{placeholder}`
segments as Python `str.format` parses it. -/
inductive TemplateSeg where
  | lit (s : String)
  | field (param : String)
deriving DecidableEq

/-- Python `str.format` over a parsed template: placeholders are replaced
by the bound value of the parameter of that name. -/
def formatTemplate (t : List TemplateSeg) (args : String → String) : String :=
  match t with
  | [] => ""
  | TemplateSeg.lit s :: rest => s ++ formatTemplate rest args
  | TemplateSeg.field p :: rest => args p ++ formatTemplate rest args

/-- The binding `_synchronized` formats with: `inspect.getcallargs` maps
each parameter name to its call-site value, then
`call_args['f_name'] = f.__name__` sets the key `"f_name"` to the wrapped
operation's own name. -/
def callArgsWithFName (params : String → String) (fname : String) :
    String → String :=
  fun p => if p = "f_name" then fname else params p

/-- The resolved lock name `lock_name.format(**call_args)` passed to
`coordinator.get_lock`. -/
def resolveLockName (t : List TemplateSeg) (params : String → String)
    (fname : String) : String :=
  formatTemplate t (callArgsWithFName params fname)

/-- C9: for a guarded call on a connected coordinator, the one lock name
sent to the backend is the byte encoding of the namespace prefix followed
by the template with each placeholder substituted by the call-site value
of that parameter — the `f_name` field by the wrapped operation's own
name — and any two invocations (of any operations) resolving to the same
name make the identical backend request: the lock is keyed purely by the
resolved name string. -/
theorem synchronized_lock_name {L : Type} (pfx : String) (c : BackendDriver L)
    (t t' : List TemplateSeg) (params params' : String → String)
    (fname fname' : String) (bs : List Nat)
    (henc : encodeAscii (pfx ++ resolveLockName t params fname) = Except.ok bs)
    (hsame : resolveLockName t' params' fname' = resolveLockName t params fname) :
    (get_lock pfx (some c) (resolveLockName t params fname)).1 = [bs]
    ∧ callArgsWithFName params fname "f_name" = fname
    ∧ get_lock pfx (some c) (resolveLockName t' params' fname')
        = get_lock pfx (some c) (resolveLockName t params fname) := by
  refine ⟨by simp [get_lock, henc], rfl, by rw [hsame]⟩

/-- C9 witness: template `"{f_name}-{vol}"` invoked as operation `foo`
with `vol = "v1"` resolves to `"foo-v1"`, the backend receives the bytes
of `"cinder-foo-v1"`, and a different operation `bar` with the literal
template `"foo-v1"` makes the identical request. -/
theorem synchronized_lock_name_witness :
    (get_lock "cinder-" (some (⟨fun bs => bs⟩ : BackendDriver (List Nat)))
        (resolveLockName
          [TemplateSeg.field "f_name", TemplateSeg.lit "-", TemplateSeg.field "vol"]
          (fun p => if p = "vol" then "v1" else "") "foo")).1
      = ["cinder-foo-v1".toList.map Char.toNat]
    ∧ callArgsWithFName (fun p => if p = "vol" then "v1" else "") "foo" "f_name"
        = "foo"
    ∧ get_lock "cinder-" (some (⟨fun bs => bs⟩ : BackendDriver (List Nat)))
        (resolveLockName [TemplateSeg.lit "foo-v1"] (fun _ => "") "bar")
      = get_lock "cinder-" (some (⟨fun bs => bs⟩ : BackendDriver (List Nat)))
        (resolveLockName
          [TemplateSeg.field "f_name", TemplateSeg.lit "-", TemplateSeg.field "vol"]
          (fun p => if p = "vol" then "v1" else "") "foo") :=
  synchronized_lock_name "cinder-" ⟨fun bs => bs⟩
    [TemplateSeg.field "f_name", TemplateSeg.lit "-", TemplateSeg.field "vol"]
    [TemplateSeg.lit "foo-v1"]
    (fun p => if p = "vol" then "v1" else "") (fun _ => "") "foo" "bar"
    ("cinder-foo-v1".toList.map Char.toNat) (by rfl) (by rfl)

/-! ### `Coordinator._reconnect` backoff arithmetic

Source (coordination.py lines 160-175): on each failed attempt,
`backoff = min(cap, random.uniform(base, backoff * 3))`, starting from
`backoff = base`.  The uniform draw is modelled by a sample value
constrained to the interval `[base, backoff * 3]` that
`random.uniform(a, b)` returns from.
-/

/-- One failed reconnect attempt's backoff update, with `u` the value
drawn by `random.uniform(base, backoff * 3)`. -/
def backoffStep (cap u : ℚ) : ℚ := min cap u

/-- The successive backoff values computed over a run of failed attempts,
starting from the current value `prev` (initially `base`), where
`samples` lists the successive uniform draws. -/
def backoffValues (cap : ℚ) : List ℚ → ℚ → List ℚ
  | [], _ => []
  | u :: us, prev =>
      backoffStep cap u :: backoffValues cap us (backoffStep cap u)

/-- Python `random.uniform(a, b)` with `a ≤ b` returns a value in `[a, b]`: each
draw lies between `base` and three times the backoff value current at
that draw. -/
def ValidSamples (cap base : ℚ) : List ℚ → ℚ → Prop
  | [], _ => True
  | u :: us, prev =>
      base ≤ u ∧ u ≤ prev * 3 ∧ ValidSamples cap base us (backoffStep cap u)

theorem backoffValues_mem_bounds (cap base : ℚ) (hcap : base ≤ cap)
    (samples : List ℚ) :
    ∀ (prev : ℚ), ValidSamples cap base samples prev →
      ∀ b ∈ backoffValues cap samples prev, base ≤ b ∧ b ≤ cap := by
  induction samples with
  | nil =>
    intro prev _ b hb
    simp [backoffValues] at hb
  | cons u us ih =>
    intro prev hvalid b hb
    obtain ⟨hu1, hu2, hrest⟩ := hvalid
    simp only [backoffValues, List.mem_cons] at hb
    rcases hb with hb | hb
    · subst hb
      exact ⟨le_min hcap hu1, min_le_left _ _⟩
    · exact ih _ hrest b hb

/-- C4: with configured `0 < base ≤ cap`, every backoff value the
reconnection procedure computes is `min cap u` for a uniform draw `u` from
`[base, previous * 3]`; such a value lies in `[base, previous * 3]`
clipped to `cap` — in particular every value in the computed backoff
sequence is at least `base` and at most `cap`. -/
theorem reconnect_backoff_bounds (cap base prev u p b : ℚ)
    (samples : List ℚ)
    (hbase : 0 < base) (hcap : base ≤ cap) (hprev : base ≤ prev)
    (hu1 : base ≤ u) (hu2 : u ≤ p * 3)
    (hvalid : ValidSamples cap base samples prev)
    (hb : b ∈ backoffValues cap samples prev) :
    (base ≤ backoffStep cap u ∧ backoffStep cap u ≤ p * 3
      ∧ backoffStep cap u ≤ cap)
    ∧ (base ≤ b ∧ b ≤ cap) := by
  refine ⟨⟨le_min hcap hu1, le_trans (min_le_right _ _) hu2,
    min_le_left _ _⟩, ?_⟩
  exact backoffValues_mem_bounds cap base hcap samples prev hvalid b hb

/-- C4 witness: `cap = 1/2`, `base = 1/10`, draws `3/10` then `9/10`
(each inside its `[base, previous * 3]` interval); the second computed
value is clipped to the cap, and both lie in `[base, cap]`. -/
theorem reconnect_backoff_bounds_witness :
    ((1 : ℚ)/10 ≤ backoffStep (1/2) (3/10)
      ∧ backoffStep (1/2) (3/10) ≤ (1/10) * 3
      ∧ backoffStep (1/2) (3/10) ≤ 1/2)
    ∧ ((1 : ℚ)/10 ≤ 1/2 ∧ (1 : ℚ)/2 ≤ 1/2) :=
  reconnect_backoff_bounds (1/2) (1/10) (1/10) (3/10) (1/10) (1/2)
    [3/10, 9/10] (by norm_num) (by norm_num) (by norm_num)
    (by norm_num) (by norm_num)
    (by norm_num [ValidSamples, backoffStep])
    (by norm_num [backoffValues, backoffStep])

/-! ### `Coordinator._reconnect` control flow

Source (coordination.py lines 165-174):
`for attempt in itertools.count(1): try: self._start(); break
except ToozError: ...; self._dead.wait(backoff)`.
The value returned by `self._dead.wait(backoff)` is discarded, so the
loop leaves only on a successful `_start()`.
-/

/-- Environment of one reconnect attempt: whether `_start()` succeeds,
and whether the shutdown flag is (or becomes) set during the
`self._dead.wait(backoff)` that follows a failure. -/
structure ReconnectAttempt where
  startOk : Bool
  deadDuringWait : Bool
deriving DecidableEq

inductive ReconnectResult where
  /-- case where `_start()` succeeded on the numbered attempt and `_reconnect`
  returned. -/
  | reconnected (attemptsMade : Nat)
  /-- the modelled attempt outcomes ran out with the loop still
  running. -/
  | stillLooping (attemptsMade : Nat)
deriving DecidableEq

/-- Model of the `_reconnect` attempt loop, consuming the outcome of each
successive attempt; `attemptNo` is the `itertools.count(1)` counter. -/
def _reconnect (attempts : List ReconnectAttempt) (attemptNo : Nat) :
    ReconnectResult :=
  match attempts with
  | [] => ReconnectResult.stillLooping (attemptNo - 1)
  | a :: rest =>
    if a.startOk then ReconnectResult.reconnected attemptNo
    else _reconnect rest (attemptNo + 1)

/-- C5, divergence evidence: with the shutdown flag set during the first
backoff wait, the loop still performs a second reconnection attempt (and
in general the loop's behaviour is completely insensitive to the shutdown
flag, whose wait result line 174 discards). -/
theorem reconnect_ignores_shutdown :
    _reconnect [⟨false, true⟩, ⟨true, false⟩] 1
      = ReconnectResult.reconnected 2
    ∧ ∀ (attempts : List ReconnectAttempt) (n : Nat),
        _reconnect attempts n
          = _reconnect (attempts.map fun a => ⟨a.startOk, false⟩) n := by
  refine ⟨rfl, ?_⟩
  intro attempts
  induction attempts with
  | nil => intro n; rfl
  | cons a rest ih =>
    intro n
    by_cases h : a.startOk <;> simp [_reconnect, h, ih]

/-! ### `Coordinator.heartbeat` loop

Source (coordination.py lines 120-138 and 147-158): the loop runs while
`self.coordinator is not None and not self._dead.is_set()`; `_heartbeat`
re-raises a `ToozConnectionError`, logs and suppresses any other
`ToozError` (falling through to `return False`), and returns `True` on
success; the loop reacts to the re-raised connection error with
`self._reconnect()` and otherwise waits out the heartbeat interval.
-/

inductive BeatOutcome where
  | success
  /-- the `tooz.coordination.ToozConnectionError` kind -/
  | connectionError
  /-- any other `tooz.coordination.ToozError` -/
  | genericError
deriving DecidableEq

/-- Model of `Coordinator._heartbeat`: the connection-error kind is
re-raised, any other backend error kind is logged and suppressed (the
method falls through to `return False`), success returns `True`. -/
def _heartbeat : BeatOutcome → Except Unit Bool
  | BeatOutcome.success => Except.ok true
  | BeatOutcome.connectionError => Except.error ()
  | BeatOutcome.genericError => Except.ok false

/-- What one heartbeat cycle observes: the loop-condition reads of
`self.coordinator` and `self._dead`, and the backend's response to the
liveness signal. -/
structure HbCycle where
  coordIsSome : Bool
  deadSet : Bool
  beat : BeatOutcome
deriving DecidableEq

inductive HbEvent where
  | beatAttempted
  | reconnectRan
  | waited
deriving DecidableEq

inductive HbExit where
  /-- the `while` condition failed: records `self.coordinator is None`
  and `self._dead.is_set()` as observed. -/
  | exited (coordNone : Bool) (deadSet : Bool)
  /-- the modelled schedule of cycles ran out, the loop still running. -/
  | cyclesExhausted
deriving DecidableEq

/-- Model of the `Coordinator.heartbeat` loop over a schedule of cycle
observations, returning the events of the run and how the loop left. -/
def heartbeat : List HbCycle → List HbEvent × HbExit
  | [] => ([], HbExit.cyclesExhausted)
  | c :: rest =>
    if c.coordIsSome && !c.deadSet then
      let evs :=
        match _heartbeat c.beat with
        | Except.error _ => [HbEvent.beatAttempted, HbEvent.reconnectRan]
        | Except.ok _ => [HbEvent.beatAttempted, HbEvent.waited]
      (evs ++ (heartbeat rest).1, (heartbeat rest).2)
    else
      ([], HbExit.exited (!c.coordIsSome) c.deadSet)

theorem heartbeat_exit_reason (cycles : List HbCycle) (cn d : Bool)
    (h : (heartbeat cycles).2 = HbExit.exited cn d) :
    cn = true ∨ d = true := by
  induction cycles with
  | nil => simp [heartbeat] at h
  | cons c rest ih =>
    by_cases hc : (c.coordIsSome && !c.deadSet) = true
    · rw [show (heartbeat (c :: rest)).2 = (heartbeat rest).2 by
        simp [heartbeat, hc]] at h
      exact ih h
    · simp only [heartbeat, if_neg hc] at h
      cases h1 : c.coordIsSome <;> cases h2 : c.deadSet <;>
        simp [h1, h2] at hc h ⊢ <;> simp_all

/-- C6: in a live cycle (handle present, shutdown flag clear) a generic
backend error on the liveness signal is suppressed — the loop attempts the
beat, waits, and continues with the rest of the schedule, never running
reconnection — while a connection-error kind makes the loop run the
reconnection procedure and then continue; and whenever the loop leaves by
its condition, either the backend handle had been cleared (teardown) or
the shutdown flag was set. -/
theorem heartbeat_error_handling (cg cc : HbCycle) (rest cycles : List HbCycle)
    (cn d : Bool)
    (hg1 : cg.coordIsSome = true) (hg2 : cg.deadSet = false)
    (hg3 : cg.beat = BeatOutcome.genericError)
    (hc1 : cc.coordIsSome = true) (hc2 : cc.deadSet = false)
    (hc3 : cc.beat = BeatOutcome.connectionError)
    (hexit : (heartbeat cycles).2 = HbExit.exited cn d) :
    heartbeat (cg :: rest)
      = ([HbEvent.beatAttempted, HbEvent.waited] ++ (heartbeat rest).1,
         (heartbeat rest).2)
    ∧ heartbeat (cc :: rest)
      = ([HbEvent.beatAttempted, HbEvent.reconnectRan] ++ (heartbeat rest).1,
         (heartbeat rest).2)
    ∧ (cn = true ∨ d = true) := by
  refine ⟨?_, ?_, heartbeat_exit_reason cycles cn d hexit⟩
  · simp [heartbeat, hg1, hg2, hg3, _heartbeat]
  · simp [heartbeat, hc1, hc2, hc3, _heartbeat]

/-- C6 witness: the theorem applied to a generic-error cycle and a
connection-error cycle followed by an empty schedule, with an exit
observed on a schedule whose first cycle sees the shutdown flag set. -/
theorem heartbeat_error_handling_witness :
    heartbeat [⟨true, false, BeatOutcome.genericError⟩]
      = ([HbEvent.beatAttempted, HbEvent.waited] ++ (heartbeat []).1,
         (heartbeat []).2)
    ∧ heartbeat [⟨true, false, BeatOutcome.connectionError⟩]
      = ([HbEvent.beatAttempted, HbEvent.reconnectRan] ++ (heartbeat []).1,
         (heartbeat []).2)
    ∧ (false = true ∨ true = true) :=
  heartbeat_error_handling ⟨true, false, BeatOutcome.genericError⟩
    ⟨true, false, BeatOutcome.connectionError⟩ []
    [⟨true, true, BeatOutcome.success⟩] false true
    rfl rfl rfl rfl rfl rfl rfl

/-! ### `Coordinator` lifecycle (`__init__`, `start`, `_start`, `stop`)

Source (coordination.py lines 71-105 and 140-145).  Note the order of
operations inside `_start`: `self.coordinator` is assigned the handle
returned by `get_coordinator` *before* `self.coordinator.start()` is
called, so an exception from the latter leaves the handle assigned.
-/

/-- The mutable attributes of a `Coordinator` instance relevant to the
connection-state invariant. `coordinator` is the backend handle; `dead`
is `self._dead` (absent, or present with its set-flag); `ev` says whether
a heartbeat task handle `self._ev` is held. -/
structure CoordState (H : Type) where
  coordinator : Option H
  started : Bool
  dead : Option Bool
  ev : Bool
deriving DecidableEq

/-- The state `__init__` establishes. -/
def initial (H : Type) : CoordState H :=
  { coordinator := none, started := false, dead := none, ev := false }

/-- The outside world as `start` sees it: `get_coordinator` either raises
a `ToozError` or yields a handle, `handle.start()` either raises or
succeeds, and the backend reports `requires_beating`. -/
structure StartEnv (H : Type) where
  getCoordinator : Except Unit H
  handleStart : H → Except Unit Unit
  requiresBeating : Bool

/-- Model of `Coordinator._start`: assigns the handle returned by
`get_coordinator` to `self.coordinator`, then calls
`self.coordinator.start()`; an exception from either call propagates, and
in the second case the assignment has already happened. -/
def _start {H : Type} (st : CoordState H) (env : StartEnv H) :
    CoordState H × Except Unit Unit :=
  match env.getCoordinator with
  | Except.error e => (st, Except.error e)
  | Except.ok h =>
    match env.handleStart h with
    | Except.error e => ({ st with coordinator := some h }, Except.error e)
    | Except.ok _ => ({ st with coordinator := some h }, Except.ok ())

/-- Model of `Coordinator.start`: a no-op when already started; otherwise
creates the `_dead` event, runs `_start`, marks `started`, and spawns the
heartbeat task when the handle is present and the backend requires
beating; a `ToozError` from `_start` is logged and re-raised, the state
remaining as `_start` left it. -/
def start {H : Type} (st : CoordState H) (env : StartEnv H) :
    CoordState H × Except Unit Unit :=
  if st.started then (st, Except.ok ())
  else
    match _start { st with dead := some false } env with
    | (st2, Except.error e) => (st2, Except.error e)
    | (st2, Except.ok _) =>
      let st3 := { st2 with started := true }
      if st3.coordinator.isSome && env.requiresBeating then
        ({ st3 with ev := true }, Except.ok ())
      else (st3, Except.ok ())

/-- Model of `Coordinator.stop`: a no-op when not started; otherwise
stops the backend handle, sets the shutdown flag, joins the heartbeat
task when one exists, then clears the task handle, the backend handle and
the started flag. -/
def stop {H : Type} (st : CoordState H) : CoordState H :=
  if st.started then
    { st with
      ev := false
      coordinator := none
      started := false
      dead := st.dead.map (fun _ => true) }
  else st

/-- The claimed invariant: `connectionState == Connected` iff
`backendHandle != null`, i.e. `self.started` is true iff
`self.coordinator is not None`. -/
def ConnInvariant {H : Type} (st : CoordState H) : Prop :=
  st.started = true ↔ st.coordinator.isSome = true

/-- C7, counterexample: starting a fresh coordinator against a backend
whose handle is created fine but whose `start()` raises leaves
`self.coordinator` assigned while `self.started` stays false — the
invariant does not survive this failing `start()`. -/
theorem start_invariant_counterexample :
    ¬ ConnInvariant (start (initial Unit)
        ⟨Except.ok (), fun _ => Except.error (), false⟩).1 := by
  simp [ConnInvariant, start, _start, initial]

/-- C7 (amended): the invariant `started ↔ backend handle present` holds
after construction and is preserved by `stop`, by any `start` that
returns normally, and by any `start` that fails while obtaining the
backend handle; the one unpreserved case is a `start` whose connect
fails after the handle was assigned. -/
theorem lifecycle_invariant {H : Type} (st : CoordState H)
    (env1 env2 : StartEnv H) (hinv : ConnInvariant st)
    (h1 : (start st env1).2 = Except.ok ())
    (h2 : env2.getCoordinator = Except.error ()) :
    ConnInvariant (initial H)
    ∧ ConnInvariant (stop st)
    ∧ ConnInvariant (start st env1).1
    ∧ ConnInvariant (start st env2).1 := by
  refine ⟨by simp [ConnInvariant, initial], ?_, ?_, ?_⟩
  · by_cases hs : st.started = true
    · simp [stop, hs, ConnInvariant]
    · simp only [Bool.not_eq_true] at hs
      simpa [stop, hs] using hinv
  · by_cases hs : st.started = true
    · simpa [start, hs] using hinv
    · simp only [Bool.not_eq_true] at hs
      rcases hg : env1.getCoordinator with e | h
      · simp [start, _start, hs, hg] at h1
      · rcases hh : env1.handleStart h with e | u
        · simp [start, _start, hs, hg, hh] at h1
        · by_cases hb : env1.requiresBeating = true <;>
            simp [start, _start, hs, hg, hh, hb, ConnInvariant]
  · by_cases hs : st.started = true
    · simpa [start, hs] using hinv
    · simp only [Bool.not_eq_true] at hs
      have : (start st env2).1 = { st with dead := some false } := by
        simp [start, _start, hs, h2]
      rw [this]
      simpa [ConnInvariant, hs] using hinv

/-- C7 witness: the amended theorem applied to a fresh coordinator, a
fully successful backend environment and one failing at handle
creation. -/
theorem lifecycle_invariant_witness :
    ConnInvariant (initial Unit)
    ∧ ConnInvariant (stop (initial Unit))
    ∧ ConnInvariant (start (initial Unit)
        ⟨Except.ok (), fun _ => Except.ok (), true⟩).1
    ∧ ConnInvariant (start (initial Unit)
        ⟨Except.error (), fun _ => Except.ok (), false⟩).1 :=
  lifecycle_invariant (initial Unit)
    ⟨Except.ok (), fun _ => Except.ok (), true⟩
    ⟨Except.error (), fun _ => Except.ok (), false⟩
    (by simp [ConnInvariant, initial]) rfl rfl

/-! ### Interleaving of `stop()` with the heartbeat task

Source (coordination.py lines 96-105 and 120-138).  The heartbeat loop
runs on its own execution context; `stop()` runs on the caller's.  Each
Python statement of interest is one atomic step: the loop's condition
check, the `coordinator.heartbeat()` call (which emits the liveness
signal whether it then succeeds or raises), the interval wait, and the
reconnect attempts; on the stop side `self.coordinator.stop()`,
`self._dead.set()`, the `self._ev.wait()` join — which can complete only
once the loop has exited — and the final clearing of the handles, after
which `stop()` returns.
-/

inductive HbPc where
  | hCheck
  | hBeat
  | hWait
  | hReconn
  | hDone
deriving DecidableEq

inductive StopPc where
  | s0
  | s1
  | s2
  | s3
  | sDone
deriving DecidableEq

inductive TraceEv where
  | beat
  | stopReturned
deriving DecidableEq

structure SysState where
  pcH : HbPc
  pcS : StopPc
  dead : Bool
  coordSome : Bool
  trace : List TraceEv
deriving DecidableEq

/-- Both threads at their entry points on a started coordinator. -/
def sysInit : SysState :=
  { pcH := HbPc.hCheck, pcS := StopPc.s0, dead := false, coordSome := true,
    trace := [] }

/-- One atomic step of either thread. -/
inductive SysStep : SysState → SysState → Prop where
  /-- the `while` condition holds; enter the body. -/
  | checkContinue {s : SysState} (h1 : s.pcH = HbPc.hCheck)
      (h2 : s.coordSome = true) (h3 : s.dead = false) :
      SysStep s { s with pcH := HbPc.hBeat }
  /-- the `while` condition fails; the loop exits. -/
  | checkExit {s : SysState} (h1 : s.pcH = HbPc.hCheck)
      (h2 : s.coordSome = false ∨ s.dead = true) :
      SysStep s { s with pcH := HbPc.hDone }
  /-- step where `self._heartbeat()` emits the liveness signal and returns. -/
  | beatOk {s : SysState} (h1 : s.pcH = HbPc.hBeat) :
      SysStep s { s with
        pcH := HbPc.hWait
        trace := s.trace ++ [TraceEv.beat] }
  /-- step where `self._heartbeat()` emits the signal and raises the connection
  error; the loop enters `_reconnect`. -/
  | beatConnFail {s : SysState} (h1 : s.pcH = HbPc.hBeat) :
      SysStep s { s with
        pcH := HbPc.hReconn
        trace := s.trace ++ [TraceEv.beat] }
  /-- step where `self._dead.wait(interval)` returns (timeout or early wake). -/
  | waitDone {s : SysState} (h1 : s.pcH = HbPc.hWait) :
      SysStep s { s with pcH := HbPc.hCheck }
  /-- a reconnect attempt fails and the loop stays in `_reconnect` (the
  shutdown flag is not consulted there). -/
  | reconnRetry {s : SysState} (h1 : s.pcH = HbPc.hReconn) :
      SysStep s s
  /-- a reconnect attempt succeeds; the loop resumes at its condition. -/
  | reconnOk {s : SysState} (h1 : s.pcH = HbPc.hReconn) :
      SysStep s { s with pcH := HbPc.hCheck }
  /-- step running `self.coordinator.stop()`. -/
  | stopBackend {s : SysState} (h1 : s.pcS = StopPc.s0) :
      SysStep s { s with pcS := StopPc.s1 }
  /-- step running `self._dead.set()`. -/
  | stopSetDead {s : SysState} (h1 : s.pcS = StopPc.s1) :
      SysStep s { s with pcS := StopPc.s2, dead := true }
  /-- step where `self._ev.wait()` completes — only enabled once the loop has
  exited. -/
  | stopJoin {s : SysState} (h1 : s.pcS = StopPc.s2)
      (h2 : s.pcH = HbPc.hDone) :
      SysStep s { s with pcS := StopPc.s3 }
  /-- the handles are cleared and `stop()` returns. -/
  | stopReturn {s : SysState} (h1 : s.pcS = StopPc.s3) :
      SysStep s { s with
        pcS := StopPc.sDone
        coordSome := false
        trace := s.trace ++ [TraceEv.stopReturned] }

inductive SysReach : SysState → Prop where
  | init : SysReach sysInit
  | step {s s' : SysState} : SysReach s → SysStep s s' → SysReach s'

/-- Returns `true` when no `beat` event follows a `stopReturned` event. -/
def noBeatAfterStop : List TraceEv → Bool
  | [] => true
  | TraceEv.beat :: rest => noBeatAfterStop rest
  | TraceEv.stopReturned :: rest => !rest.contains TraceEv.beat

theorem noBeatAfterStop_append_beat (tr : List TraceEv)
    (h : TraceEv.stopReturned ∉ tr) :
    noBeatAfterStop (tr ++ [TraceEv.beat]) = true := by
  induction tr with
  | nil => rfl
  | cons e rest ih =>
    cases e with
    | beat =>
      simp only [List.cons_append, noBeatAfterStop]
      exact ih (fun hm => h (List.mem_cons_of_mem _ hm))
    | stopReturned => exact absurd (List.mem_cons_self _ _) h

theorem noBeatAfterStop_append_stop (tr : List TraceEv)
    (h : TraceEv.stopReturned ∉ tr) :
    noBeatAfterStop (tr ++ [TraceEv.stopReturned]) = true := by
  induction tr with
  | nil => rfl
  | cons e rest ih =>
    cases e with
    | beat =>
      simp only [List.cons_append, noBeatAfterStop]
      exact ih (fun hm => h (List.mem_cons_of_mem _ hm))
    | stopReturned => exact absurd (List.mem_cons_self _ _) h

/-- The inductive invariant tying the two threads together: once `stop`
is past its join the loop has exited; once `stopReturned` is on the trace
`stop` has returned; and the trace never shows a beat after the
return. -/
def StopInv (s : SysState) : Prop :=
  (s.pcS = StopPc.s3 ∨ s.pcS = StopPc.sDone → s.pcH = HbPc.hDone)
  ∧ (TraceEv.stopReturned ∈ s.trace → s.pcS = StopPc.sDone)
  ∧ noBeatAfterStop s.trace = true

theorem stopInv_step {s s' : SysState} (hs : StopInv s)
    (hstep : SysStep s s') : StopInv s' := by
  obtain ⟨h1, h2, h3⟩ := hs
  cases hstep with
  | checkContinue hp hc hd =>
    have hne : s.pcH ≠ HbPc.hDone := by rw [hp]; simp
    exact ⟨fun hx => (hne (h1 hx)).elim, h2, h3⟩
  | checkExit hp hc =>
    exact ⟨fun _ => rfl, h2, h3⟩
  | beatOk hp =>
    have hne : s.pcH ≠ HbPc.hDone := by rw [hp]; simp
    have hnt : TraceEv.stopReturned ∉ s.trace := fun hm =>
      hne (h1 (Or.inr (h2 hm)))
    refine ⟨fun hx => (hne (h1 hx)).elim, fun hm => ?_,
      noBeatAfterStop_append_beat _ hnt⟩
    rcases List.mem_append.mp hm with hm' | hm'
    · exact (hnt hm').elim
    · simp at hm'
  | beatConnFail hp =>
    have hne : s.pcH ≠ HbPc.hDone := by rw [hp]; simp
    have hnt : TraceEv.stopReturned ∉ s.trace := fun hm =>
      hne (h1 (Or.inr (h2 hm)))
    refine ⟨fun hx => (hne (h1 hx)).elim, fun hm => ?_,
      noBeatAfterStop_append_beat _ hnt⟩
    rcases List.mem_append.mp hm with hm' | hm'
    · exact (hnt hm').elim
    · simp at hm'
  | waitDone hp =>
    have hne : s.pcH ≠ HbPc.hDone := by rw [hp]; simp
    exact ⟨fun hx => (hne (h1 hx)).elim, h2, h3⟩
  | reconnRetry hp =>
    exact ⟨h1, h2, h3⟩
  | reconnOk hp =>
    have hne : s.pcH ≠ HbPc.hDone := by rw [hp]; simp
    exact ⟨fun hx => (hne (h1 hx)).elim, h2, h3⟩
  | stopBackend hp =>
    refine ⟨fun hx => ?_, fun hm => ?_, h3⟩
    · rcases hx with hx | hx <;> simp at hx
    · have := h2 hm
      rw [hp] at this
      simp at this
  | stopSetDead hp =>
    refine ⟨fun hx => ?_, fun hm => ?_, h3⟩
    · rcases hx with hx | hx <;> simp at hx
    · have := h2 hm
      rw [hp] at this
      simp at this
  | stopJoin hp hd =>
    refine ⟨fun _ => hd, fun hm => ?_, h3⟩
    have := h2 hm
    rw [hp] at this
    simp at this
  | stopReturn hp =>
    have hnt : TraceEv.stopReturned ∉ s.trace := fun hm => by
      have := h2 hm
      rw [hp] at this
      simp at this
    exact ⟨fun _ => h1 (Or.inl hp), fun _ => rfl,
      noBeatAfterStop_append_stop _ hnt⟩

theorem stopInv_reach {s : SysState} (h : SysReach s) : StopInv s := by
  induction h with
  | init =>
    refine ⟨fun hx => ?_, fun hm => ?_, rfl⟩
    · rcases hx with hx | hx <;> simp [sysInit] at hx
    · simp [sysInit] at hm
  | step _ hstep ih => exact stopInv_step ih hstep

/-- C8: in every reachable interleaving of a started coordinator's
heartbeat loop with a call to `stop()`, once `stop()` has returned the
liveness loop has fully exited, and the event trace never shows a
liveness signal after the return of `stop()`. -/
theorem stop_no_beat_after_return (s : SysState) (h : SysReach s)
    (hret : TraceEv.stopReturned ∈ s.trace) :
    s.pcH = HbPc.hDone ∧ noBeatAfterStop s.trace = true := by
  obtain ⟨h1, h2, h3⟩ := stopInv_reach h
  exact ⟨h1 (Or.inr (h2 hret)), h3⟩

/-- C8 witness: a complete interleaving — one beat, then `stop()` sets
the flag, the loop observes it and exits, the join completes and `stop()`
returns — reaching a state whose trace is `[beat, stopReturned]`. -/
theorem stop_no_beat_after_return_witness :
    (⟨HbPc.hDone, StopPc.sDone, true, false,
      [TraceEv.beat, TraceEv.stopReturned]⟩ : SysState).pcH = HbPc.hDone
    ∧ noBeatAfterStop (⟨HbPc.hDone, StopPc.sDone, true, false,
        [TraceEv.beat, TraceEv.stopReturned]⟩ : SysState).trace = true := by
  refine stop_no_beat_after_return _ ?_ (by simp)
  exact SysReach.step (SysReach.step (SysReach.step (SysReach.step
    (SysReach.step (SysReach.step (SysReach.step (SysReach.step
      SysReach.init
      (SysStep.checkContinue rfl rfl rfl))
      (SysStep.beatOk rfl))
      (SysStep.waitDone rfl))
      (SysStep.stopBackend rfl))
      (SysStep.stopSetDead rfl))
      (SysStep.checkExit rfl (Or.inr rfl)))
      (SysStep.stopJoin rfl rfl))
    (SysStep.stopReturn rfl)

end Cinder
